import Mathlib

/-!
# Verification of the synthetic-dataset generation engine

Shallow embedding of `src/synthetic_dataset/generate/dataset_generation.py`
(`DataGenerator`): the distribution sampler `sample_distribution`, the
dependency-resolution loop `generate_one`, and the batch builder `generate`.

Modelling conventions:
* Python scalar values are the inductive `Value` (`None` is `Value.vNone`);
  numeric draws are rationals (the engine's numeric logic is order/clamp
  arithmetic, faithfully representable over `ℚ`).
* The process-wide random source (`np.random.*`, `random.*`) is an explicit
  `Oracle` of draw functions: one call site, one oracle application.
* Python exceptions are `Except` errors.  Exceptions raised inside a user
  formula (`eval(formula)`) carry a message string; exceptions raised inside
  `sample_distribution` are the inductive `SampleErr`.
* A field's `formula` string is embedded as its evaluation semantics: an
  opaque function from the generation context to a result (Python's `eval`
  runs arbitrary code, so only its input/output behaviour is modelled).
* The field catalog is the normalized per-field metadata exactly as the
  adapter code (lines 120-132) extracts it: `distribution`, `formula`,
  `dependent_on`, the default value, and the optional `required` attribute
  (present on pydantic-v1 `ModelField`s, absent otherwise).
* Python set-iteration order over `unresolved` is modelled as list order;
  the dict `obj` is an insertion-ordered association list.
* The unbounded `while unresolved:` loop runs on fuel; exhausted fuel is
  `Option.none`, and a theorem shows the chosen fuel is never exhausted.
-/

/-- A Python scalar value as it can appear in a generated record or a
distribution-spec parameter position. -/
inductive Value where
  | vNone : Value
  | vInt (i : Int) : Value
  | vRat (q : Rat) : Value
  | vStr (s : String) : Value
  | vBool (b : Bool) : Value
deriving DecidableEq

/-- The generation context `obj`: an insertion-ordered mapping from field
name to resolved value (a Python dict). -/
abbrev Ctx := List (String × Value)

/-- First-match association-list lookup (Python dict access on unique keys). -/
def lookupA {α : Type} : List (String × α) → String → Option α
  | [], _ => none
  | (k, v) :: rest, n => if k = n then some v else lookupA rest n

/-- The keys of a context, in insertion order. -/
def ctxKeys (ctx : Ctx) : List String := ctx.map Prod.fst

/-- Exceptions that `sample_distribution` itself can raise. -/
inductive SampleErr where
  | valueError (msg : String)
  | typeError (msg : String)
  | keyError (k : String)
  | indexError

/-- The shared random source: each constructor models one library draw
function consumed by the sampler (`np.random.normal`, `np.random.lognormal`,
`np.random.poisson`, `np.random.exponential`, `random.choices`,
`random.choice`, `random.random`). -/
structure Oracle where
  normal : Rat → Rat → Rat
  lognormal : Rat → Rat → Rat
  poisson : Rat → Int
  exponential : Rat → Rat
  choices : List String → List Rat → String
  choice : List String → String
  random : Rat

/-- One entry of a conditional-categorical `rules` table: the `probs`
weight mapping if the rule dict has a `"probs"` key. -/
structure Rule where
  probs : Option (List (String × Rat))

/-- A distribution specification dict: the keys `sample_distribution`
reads, each `none` when absent.  The Python `"lambda"` key is `lam`. -/
structure DistCfg where
  dist : Option String
  mean : Option Rat
  sd : Option Rat
  sigma : Option Rat
  lam : Option Rat
  scale : Option Rat
  p : Option Rat
  min : Option Rat
  max : Option Rat
  categories : Option (List String)
  rules : List (String × Rule)
  condition_on : Option String

/-- The all-absent distribution spec, for building concrete examples. -/
def emptyCfg : DistCfg :=
  { dist := none, mean := none, sd := none, sigma := none, lam := none,
    scale := none, p := none, min := none, max := none, categories := none,
    rules := [], condition_on := none }

/-- Python `str.split("-")`: split on every dash, keeping empty pieces. -/
def splitOnDash : List Char → List (List Char)
  | [] => [[]]
  | c :: rest =>
    let r := splitOnDash rest
    if c = '-' then [] :: r
    else
      match r with
      | [] => [[c]]
      | h :: t => (c :: h) :: t

/-- Whitespace stripped by Python `int(str)` before parsing. -/
def isPySpace (c : Char) : Bool :=
  c = ' ' || c = '\t' || c = '\n' || c = '\r'

/-- Strip leading and trailing whitespace. -/
def trimChars (l : List Char) : List Char :=
  ((l.dropWhile isPySpace).reverse.dropWhile isPySpace).reverse

/-- Parse a nonempty all-digit character list as a natural number. -/
def parseDigits : List Char → Option Nat
  | [] => none
  | cs =>
    if cs.all Char.isDigit then
      some (cs.foldl (fun a c => a * 10 + (c.toNat - 48)) 0)
    else none

/-- Python `int(...)` applied to a string (as a character list): optional
sign then digits, else `ValueError`. -/
def pyIntChars (cs : List Char) : Except SampleErr Int :=
  match trimChars cs with
  | '-' :: rest =>
    match parseDigits rest with
    | some n => .ok (-(n : Int))
    | none => .error (.valueError (String.mk cs))
  | '+' :: rest =>
    match parseDigits rest with
    | some n => .ok (n : Int)
    | none => .error (.valueError (String.mk cs))
  | rest =>
    match parseDigits rest with
    | some n => .ok (n : Int)
    | none => .error (.valueError (String.mk cs))

/-- Truncation toward zero, Python `int()` on a numeric value. -/
def pyTrunc (q : Rat) : Int := if q < 0 then -((-q).floor) else q.floor

/-- Python `int(cond_val)` on a context value. -/
def pyIntOfValue : Value → Except SampleErr Int
  | .vInt i => .ok i
  | .vBool b => .ok (if b then 1 else 0)
  | .vRat q => .ok (pyTrunc q)
  | .vStr s => pyIntChars s.data
  | .vNone => .error (.typeError "int() argument is None")

/-- Python `str(cond_val)`. -/
def pyStr : Value → String
  | .vStr s => s
  | .vInt i => toString i
  | .vBool true => "True"
  | .vBool false => "False"
  | .vRat q => toString q
  | .vNone => "None"

/-- The rule-matching loop of the conditional-categorical branch
(lines 79-90): scan the `rules` entries in order, skipping `"default"`;
a key containing a dash is unpacked as `lo, hi = key.split("-")` (a
`ValueError` unless exactly two pieces) and matched as the inclusive
integer range `int(lo) <= int(cond_val) <= int(hi)` (left-to-right,
short-circuiting before `int(hi)`); any other key is matched as
`str(cond_val) == key`.  Returns the first matching rule, if any. -/
def scanRules : List (String × Rule) → Value → Except SampleErr (Option Rule)
  | [], _ => .ok none
  | (key, rule) :: rest, cv =>
    if key = "default" then scanRules rest cv
    else if key.data.contains '-' then
      match splitOnDash key.data with
      | [lo, hi] =>
        match pyIntChars lo with
        | .error e => .error e
        | .ok loI =>
          match pyIntOfValue cv with
          | .error e => .error e
          | .ok cvI =>
            if loI ≤ cvI then
              match pyIntChars hi with
              | .error e => .error e
              | .ok hiI =>
                if cvI ≤ hiI then .ok (some rule) else scanRules rest cv
            else scanRules rest cv
      | _ => .error (.valueError "too many values to unpack")
    else if pyStr cv = key then .ok (some rule)
    else scanRules rest cv

/-- `random.choices(list(probs.keys()), list(probs.values()))[0]` on a
matched rule: `KeyError` if the rule has no `"probs"` key. -/
def drawProbs (o : Oracle) (r : Rule) : Except SampleErr Value :=
  match r.probs with
  | none => .error (.keyError "probs")
  | some [] => .error (.valueError "total of weights must be greater than zero")
  | some ps => .ok (.vStr (o.choices (ps.map Prod.fst) (ps.map Prod.snd)))

/-- `random.choice(categories)` (line 98): `TypeError` on `None`,
`IndexError` on an empty list. -/
def uniformChoice (o : Oracle) : Option (List String) → Except SampleErr Value
  | none => .error (.typeError "object of type NoneType has no len()")
  | some [] => .error .indexError
  | some (a :: rest) => .ok (.vStr (o.choice (a :: rest)))

/-- The categorical branch (lines 71-98): if `condition_on` names a truthy
key present in the context, scan the rules, then fall back to the
`"default"` rule, then fall through to an unconditional uniform choice. -/
def categoricalBranch (o : Oracle) (c : DistCfg) (ctx : Ctx) : Except SampleErr Value :=
  match c.condition_on with
  | none => uniformChoice o c.categories
  | some cn =>
    if cn = "" then uniformChoice o c.categories
    else
      match lookupA ctx cn with
      | none => uniformChoice o c.categories
      | some cv =>
        match scanRules c.rules cv with
        | .error e => .error e
        | .ok (some r) => drawProbs o r
        | .ok none =>
          match lookupA c.rules "default" with
          | some r => drawProbs o r
          | none => uniformChoice o c.categories

/-- `DataGenerator.sample_distribution` (lines 42-104): `None` spec returns
`None`; otherwise dispatch on the `dist` key through the sequential `if`
chain; an unknown or missing `dist` falls through to `return None`. -/
def sample_distribution (o : Oracle) (cfg : Option DistCfg) (ctx : Ctx) :
    Except SampleErr Value :=
  match cfg with
  | none => .ok .vNone
  | some c =>
    if c.dist = some "normal" then
      let mean := c.mean.getD 0
      let sd := c.sd.getD 1
      let v0 := o.normal mean sd
      let v1 := match c.min with | some lo => max v0 lo | none => v0
      let v2 := match c.max with | some hi => min v1 hi | none => v1
      .ok (.vRat v2)
    else if c.dist = some "lognormal" then
      .ok (.vRat (o.lognormal 1 1))
    else if c.dist = some "poisson" then
      .ok (.vInt (o.poisson (c.lam.getD 1)))
    else if c.dist = some "exponential" then
      .ok (.vRat (o.exponential (c.scale.getD 1)))
    else if c.dist = some "categorical" then
      categoricalBranch o c ctx
    else if c.dist = some "bernoulli" then
      .ok (.vBool (decide (o.random < c.p.getD (1/2))))
    else .ok .vNone

/-- A `dependent_on` declaration: a single name or a list of names. -/
inductive DepDecl where
  | str (s : String)
  | list (l : List String)
deriving DecidableEq

/-- The name list a `dependent_on` declaration denotes, empty exactly when
the Python value is falsy (`None`, `""`, `[]`). -/
def depsList : Option DepDecl → List String
  | none => []
  | some (.str s) => if s = "" then [] else [s]
  | some (.list l) => l

/-- Normalized per-field metadata, as the adapter (lines 120-132) reads it:
`extras.get("distribution")`, `extras.get("formula")`,
`extras.get("dependent_on")`, the default value (`None` when absent), and
the `required` attribute when the field object has one (pydantic v1). -/
structure FieldDesc where
  distribution : Option DistCfg
  formula : Option (Ctx → Except String Value)
  dependent_on : Option DepDecl
  default_val : Value
  required : Option Bool

/-- The field catalog `self.fields`: field names with their descriptors,
in declaration order. -/
abbrev Catalog := List (String × FieldDesc)

/-- `self.fields.keys()`. -/
def fieldNames (cat : Catalog) : List String := cat.map Prod.fst

/-- `d in self.fields`. -/
def isField (cat : Catalog) (n : String) : Bool := decide (n ∈ fieldNames cat)

/-- `relevant_deps` (line 141): the declared dependencies that are
themselves catalog fields. -/
def relevantDeps (cat : Catalog) (fd : FieldDesc) : List String :=
  (depsList fd.dependent_on).filter (isField cat)

/-- `has_explicit_default` (lines 170-172): a non-`None` default, or a
present-and-falsy `required` attribute. -/
def hasExplicitDefault (fd : FieldDesc) : Bool :=
  decide (fd.default_val ≠ Value.vNone) ||
    (match fd.required with | some r => !r | none => false)

/-- One line of the no-progress diagnostic report (lines 182-191): the
field's name, `bool(ex.get("distribution"))`, its formula, its default and
its declared dependencies. -/
structure Diag where
  name : String
  has_distribution : Bool
  formula : Option (Ctx → Except String Value)
  default_val : Value
  dependent_on : Option DepDecl

/-- Exceptions escaping `generate_one` / `generate`. -/
inductive PyErr where
  | sample (e : SampleErr)
  | formulaError (msg : String)
  | fieldKeyError (k : String)
  | runtimeError (stuck : List Diag)

/-- The diagnostic line printed for one stuck field. -/
def diagOf (cat : Catalog) (n : String) : Diag :=
  match lookupA cat n with
  | some fd =>
    { name := n, has_distribution := fd.distribution.isSome,
      formula := fd.formula, default_val := fd.default_val,
      dependent_on := fd.dependent_on }
  | none =>
    { name := n, has_distribution := false, formula := none,
      default_val := .vNone, dependent_on := none }

/-- The body of the scan for one unresolved field (lines 117-177): skip
(`.ok none`) if some relevant dependency is not yet in the context; else
resolve (`.ok (some v)`) by formula, then distribution, then — when an
explicit default exists or nothing at all is declared — the default value;
a field with declared dependencies but no formula, no distribution and no
explicit default is skipped.  Formula and sampler exceptions propagate. -/
def resolveField (cat : Catalog) (o : Oracle) (fd : FieldDesc) (ctx : Ctx) :
    Except PyErr (Option Value) :=
  if (relevantDeps cat fd).any (fun d => (lookupA ctx d).isNone) then .ok none
  else
    match fd.formula with
    | some f =>
      match f ctx with
      | .error m => .error (.formulaError m)
      | .ok v => .ok (some v)
    | none =>
      match fd.distribution with
      | some dc =>
        match sample_distribution o (some dc) ctx with
        | .error e => .error (.sample e)
        | .ok v => .ok (some v)
      | none =>
        if hasExplicitDefault fd ||
            (fd.distribution.isNone && fd.formula.isNone &&
              (depsList fd.dependent_on).isEmpty) then
          .ok (some fd.default_val)
        else .ok none

/-- One full scan of `for name in list(unresolved)`: returns the names
still unresolved after the scan, the extended context, and the `progress`
flag.  Later fields in the same pass see earlier resolutions. -/
def onePass (cat : Catalog) (o : Oracle) :
    List String → Ctx → Except PyErr (List String × Ctx × Bool)
  | [], ctx => .ok ([], ctx, false)
  | n :: rest, ctx =>
    match lookupA cat n with
    | none => .error (.fieldKeyError n)
    | some fd =>
      match resolveField cat o fd ctx with
      | .error e => .error e
      | .ok (some v) =>
        match onePass cat o rest (ctx ++ [(n, v)]) with
        | .error e => .error e
        | .ok (rem, ctx2, _) => .ok (rem, ctx2, true)
      | .ok none =>
        match onePass cat o rest ctx with
        | .error e => .error e
        | .ok (rem, ctx2, prog) => .ok (n :: rem, ctx2, prog)

/-- The `while unresolved:` loop (lines 114-192) on fuel: a pass with
progress recurses, a pass without progress raises the `RuntimeError`
carrying the per-field diagnostic report; `Option.none` marks exhausted
fuel (proved unreachable for the fuel used by `generate_one`). -/
def genLoop (cat : Catalog) (o : Oracle) :
    Nat → List String → Ctx → Option (Except PyErr Ctx)
  | 0, _, _ => none
  | fuel + 1, unresolved, ctx =>
    if unresolved.isEmpty then some (.ok ctx)
    else
      match onePass cat o unresolved ctx with
      | .error e => some (.error e)
      | .ok (rem, ctx2, true) => genLoop cat o fuel rem ctx2
      | .ok (rem, _, false) =>
        some (.error (.runtimeError (rem.map (diagOf cat))))

/-- `DataGenerator.generate_one` (lines 109-194). -/
def generate_one (cat : Catalog) (o : Oracle) : Option (Except PyErr Ctx) :=
  genLoop cat o (cat.length + 1) (fieldNames cat) []

/-- The row list `[self.generate_one() for _ in range(n)]`. -/
def genRows (cat : Catalog) (o : Oracle) : Nat → Option (List (Except PyErr Ctx))
  | 0 => some []
  | n + 1 =>
    match generate_one cat o, genRows cat o n with
    | some r, some rs => some (r :: rs)
    | _, _ => none

/-- Sequencing of the comprehension: the first record whose generation
raised aborts the batch. -/
def seqRows : List (Except PyErr Ctx) → Except PyErr (List Ctx)
  | [] => .ok []
  | .error e :: _ => .error e
  | .ok c :: rest =>
    match seqRows rest with
    | .error e => .error e
    | .ok cs => .ok (c :: cs)

/-- `DataGenerator.generate` (lines 199-206) up to its in-memory content:
the rows and the CSV field names `list(rows[0].keys())`; `rows[0]` on an
empty row list is an `IndexError`.  (The file write itself is I/O glue
outside the embedded core.) -/
def generate (cat : Catalog) (o : Oracle) (n : Nat) :
    Option (Except PyErr (List String × List Ctx)) :=
  match genRows cat o n with
  | none => none
  | some rowsE =>
    some
      (match seqRows rowsE with
       | .error e => .error e
       | .ok [] => .error (.sample .indexError)
       | .ok (r :: rs) => .ok (ctxKeys r, r :: rs))

/-- A concrete deterministic oracle for evaluating the engine on examples. -/
def anOracle : Oracle :=
  { normal := fun m _ => m
    lognormal := fun m s => m + s
    poisson := fun _ => 0
    exponential := fun s => s
    choices := fun ks _ => ks.headD ""
    choice := fun l => l.headD ""
    random := 0 }
/-- The dependency-ordering invariant: every entry of the context was
written only after all of its relevant dependencies already had entries
earlier in the context. -/
def DepOrdered (cat : Catalog) (ctx : Ctx) : Prop :=
  ∀ pre b v post, ctx = pre ++ (b, v) :: post →
    ∀ fd, lookupA cat b = some fd →
      ∀ a ∈ relevantDeps cat fd, a ∈ ctxKeys pre


/-- A field carrying nothing but a default value. -/
def fdPlain (dv : Value) : FieldDesc :=
  { distribution := none, formula := none, dependent_on := none,
    default_val := dv, required := none }

/-- A one-field catalog whose field declares only a dependency on a name
outside the catalog, has no formula, no distribution, a `None` default and
a truthy `required` attribute (a pydantic-v1 required field). -/
def catC1 : Catalog :=
  [("u", { distribution := none, formula := none,
           dependent_on := some (.str "ghost"),
           default_val := .vNone, required := some true })]

/-- A two-field catalog: `a` resolves trivially; `b` declares an in-catalog
dependency on `a`, has no formula, no distribution, a `None` default and a
truthy `required` attribute. -/
def catC2 : Catalog :=
  [("a", fdPlain (.vInt 0)),
   ("b", { distribution := none, formula := none,
           dependent_on := some (.str "a"),
           default_val := .vNone, required := some true })]

/-- The descriptor of an in-catalog-dependent field with an explicit
(non-`None`) default, no formula and no distribution. -/
def fdC2w : FieldDesc :=
  { distribution := none, formula := none, dependent_on := some (.str "a"),
    default_val := .vInt 5, required := none }

/-- The descriptor of the field of `catC3`. -/
def fdC3 : FieldDesc :=
  { distribution := none, formula := none,
    dependent_on := some (.str "signup_date"),
    default_val := .vNone, required := some true }

/-- A one-field catalog whose field depends only on the external name
`signup_date` (mirroring the source's own comment), with no formula, no
distribution, a `None` default and a truthy `required` attribute: its
relevant-dependency set is empty, hence trivially acyclic. -/
def catC3 : Catalog := [("tenure", fdC3)]

/-- A two-field acyclic catalog with one in-catalog dependency edge and
explicit defaults everywhere. -/
def catC4 : Catalog :=
  [("a", fdPlain (.vInt 1)),
   ("b", { fdPlain (.vInt 2) with dependent_on := some (.str "a") })]

/-- A conditional-categorical spec whose rules table contains the
unparsable range key `"self-employed"` (it contains a dash but its pieces
are not integers). -/
def cfgC5 : DistCfg :=
  { emptyCfg with
    dist := some "categorical"
    categories := some ["x"]
    condition_on := some "employment"
    rules := [("self-employed", ⟨some [("a", 1)]⟩)] }

/-- A conditional-categorical spec whose `"18-c"` rule key has an
unparsable upper piece, together with a `"default"` rule: with a
conditioning value below the lower bound the chained comparison
short-circuits before `int("c")`, so the key is passed over without
raising and the default rule fires. -/
def cfgC5short : DistCfg :=
  { emptyCfg with
    dist := some "categorical"
    categories := some ["x"]
    condition_on := some "age"
    rules := [("18-c", ⟨some [("a", 1)]⟩),
              ("default", ⟨some [("old", 1)]⟩)] }

/-- The rule keyed `"18-22"` of the C6 example spec. -/
def ruleC6young : Rule := ⟨some [("young", 1)]⟩

/-- The rule keyed `"default"` of the C6 example spec. -/
def ruleC6default : Rule := ⟨some [("old", 1)]⟩

/-- A conditional-categorical spec on `age` with an `"18-22"` range rule
and a `"default"` rule. -/
def cfgC6 : DistCfg :=
  { emptyCfg with
    dist := some "categorical"
    categories := some ["x"]
    condition_on := some "age"
    rules := [("18-22", ruleC6young), ("default", ruleC6default)] }

/-- A normal distribution spec used by the C7 example field. -/
def cfgC7 : DistCfg := { emptyCfg with dist := some "normal", mean := some 9 }

/-- A field carrying both a formula and a distribution spec. -/
def fdC7 : FieldDesc :=
  { distribution := some cfgC7, formula := some (fun _ => .ok (.vInt 3)),
    dependent_on := none, default_val := .vNone, required := none }

/-- A normal spec with degenerate bounds `min = 100 > 18 = max`. -/
def cfgC8 : DistCfg :=
  { emptyCfg with
    dist := some "normal"
    mean := some 0
    sd := some 1
    min := some 100
    max := some 18 }

/-- An oracle whose log-normal draw returns its first shape parameter, so
the parameters actually passed to the library are observable. -/
def oracleC9 : Oracle := { anOracle with lognormal := fun m _ => m }

/-- A lognormal spec supplying its own `mean` and `sigma` values. -/
def cfgC9 : DistCfg :=
  { emptyCfg with
    dist := some "lognormal"
    mean := some 5
    sigma := some 7 }

/-- A one-field catalog that generates successfully. -/
def catC10 : Catalog := [("a", fdPlain (.vInt 7))]

theorem lookupA_isSome_iff {α : Type} (l : List (String × α)) (n : String) :
    (lookupA l n).isSome = true ↔ n ∈ l.map Prod.fst := by
  induction l with
  | nil => simp [lookupA]
  | cons hd tl ih =>
    obtain ⟨k, v⟩ := hd
    by_cases hk : k = n
    · subst hk; simp [lookupA]
    · simp [lookupA, hk, ih, Ne.symm hk]

theorem lookupA_isNone_iff {α : Type} (l : List (String × α)) (n : String) :
    (lookupA l n).isNone = true ↔ n ∉ l.map Prod.fst := by
  rw [← lookupA_isSome_iff]
  cases lookupA l n <;> simp

theorem resolveField_some_deps (cat : Catalog) (o : Oracle) (fd : FieldDesc)
    (ctx : Ctx) (v : Value)
    (h : resolveField cat o fd ctx = .ok (some v)) :
    ∀ a ∈ relevantDeps cat fd, a ∈ ctxKeys ctx := by
  intro a ha
  by_contra hmem
  have hno : (lookupA ctx a).isNone = true :=
    (lookupA_isNone_iff ctx a).mpr hmem
  have hany : (relevantDeps cat fd).any (fun d => (lookupA ctx d).isNone) = true :=
    List.any_eq_true.mpr ⟨a, ha, hno⟩
  rw [resolveField, if_pos hany] at h
  cases h

theorem onePass_spec (cat : Catalog) (o : Oracle) :
    ∀ (l : List String) (ctx : Ctx) (rem : List String) (ctx2 : Ctx) (prog : Bool),
    onePass cat o l ctx = .ok (rem, ctx2, prog) →
    rem.length ≤ l.length
    ∧ (prog = true → rem.length < l.length)
    ∧ (prog = false → rem = l ∧ ctx2 = ctx)
    ∧ (∀ x ∈ rem, x ∈ l)
    ∧ (∀ x ∈ ctxKeys ctx, x ∈ ctxKeys ctx2)
    ∧ (∀ x ∈ l, x ∈ ctxKeys ctx2 ∨ x ∈ rem) := by
  intro l
  induction l with
  | nil =>
    intro ctx rem ctx2 prog h
    simp only [onePass, Except.ok.injEq, Prod.mk.injEq] at h
    obtain ⟨h1, h2, h3⟩ := h
    subst h1; subst h2; subst h3
    simp
  | cons n rest ih =>
    intro ctx rem ctx2 prog h
    simp only [onePass] at h
    cases h1 : lookupA cat n with
    | none => simp only [h1] at h; cases h
    | some fd =>
      simp only [h1] at h
      cases h2 : resolveField cat o fd ctx with
      | error e => simp only [h2] at h; cases h
      | ok ov =>
        simp only [h2] at h
        cases ov with
        | some v =>
          cases h3 : onePass cat o rest (ctx ++ [(n, v)]) with
          | error e => simp only [h3] at h; cases h
          | ok t =>
            obtain ⟨rem0, ctx0, p0⟩ := t
            simp only [h3, Except.ok.injEq, Prod.mk.injEq] at h
            obtain ⟨hr, hc, hp⟩ := h
            subst hr; subst hc
            obtain ⟨l1, l2, l3, l4, l5, l6⟩ :=
              ih (ctx ++ [(n, v)]) rem0 ctx0 p0 h3
            have hkeys : ∀ x ∈ ctxKeys ctx, x ∈ ctxKeys ctx0 := by
              intro x hx
              refine l5 x ?_
              simp only [ctxKeys, List.map_append] at hx ⊢
              exact List.mem_append_left _ hx
            refine ⟨Nat.le_succ_of_le l1, ?_, ?_, ?_, hkeys, ?_⟩
            · intro _; exact Nat.lt_succ_of_le l1
            · intro hpf; rw [← hp] at hpf; cases hpf
            · intro x hx; exact List.mem_cons_of_mem n (l4 x hx)
            · intro x hx
              rcases List.mem_cons.mp hx with hx1 | hx2
              · subst hx1
                left
                refine l5 x ?_
                simp [ctxKeys]
              · exact l6 x hx2
        | none =>
          cases h3 : onePass cat o rest ctx with
          | error e => simp only [h3] at h; cases h
          | ok t =>
            obtain ⟨rem0, ctx0, p0⟩ := t
            simp only [h3, Except.ok.injEq, Prod.mk.injEq] at h
            obtain ⟨hr, hc, hp⟩ := h
            subst hc; subst hp; subst hr
            obtain ⟨l1, l2, l3, l4, l5, l6⟩ := ih ctx rem0 ctx0 p0 h3
            refine ⟨?_, ?_, ?_, ?_, l5, ?_⟩
            · simpa using Nat.succ_le_succ l1
            · intro hpt; simpa using Nat.succ_lt_succ (l2 hpt)
            · intro hpf
              obtain ⟨hA, hB⟩ := l3 hpf
              exact ⟨by rw [hA], hB⟩
            · intro x hx
              rcases List.mem_cons.mp hx with hx1 | hx2
              · subst hx1; exact List.mem_cons_self x rest
              · exact List.mem_cons_of_mem n (l4 x hx2)
            · intro x hx
              rcases List.mem_cons.mp hx with hx1 | hx2
              · subst hx1; right; exact List.mem_cons_self x rem0
              · rcases l6 x hx2 with hA | hB
                · exact Or.inl hA
                · exact Or.inr (List.mem_cons_of_mem n hB)

theorem resolveField_no_runtime (cat : Catalog) (o : Oracle) (fd : FieldDesc)
    (ctx : Ctx) (ds : List Diag) :
    resolveField cat o fd ctx ≠ .error (.runtimeError ds) := by
  intro h
  rw [resolveField] at h
  by_cases hb : (relevantDeps cat fd).any (fun d => (lookupA ctx d).isNone) = true
  · rw [if_pos hb] at h; cases h
  · rw [if_neg hb] at h
    cases hf : fd.formula with
    | some f =>
      simp only [hf] at h
      cases hfc : f ctx with
      | error m => simp only [hfc] at h; simp at h
      | ok v => simp only [hfc] at h; cases h
    | none =>
      simp only [hf] at h
      cases hd : fd.distribution with
      | some dc =>
        simp only [hd] at h
        cases hs : sample_distribution o (some dc) ctx with
        | error e => simp only [hs] at h; simp at h
        | ok v => simp only [hs] at h; cases h
      | none =>
        simp only [hd] at h
        split at h
        · cases h
        · cases h

theorem onePass_no_runtime (cat : Catalog) (o : Oracle) :
    ∀ (l : List String) (ctx : Ctx) (ds : List Diag),
    onePass cat o l ctx ≠ .error (.runtimeError ds) := by
  intro l
  induction l with
  | nil => intro ctx ds h; simp only [onePass] at h; cases h
  | cons n rest ih =>
    intro ctx ds h
    simp only [onePass] at h
    cases h1 : lookupA cat n with
    | none => simp only [h1] at h; simp at h
    | some fd =>
      simp only [h1] at h
      cases h2 : resolveField cat o fd ctx with
      | error e =>
        simp only [h2] at h
        cases h
        exact resolveField_no_runtime cat o fd ctx ds h2
      | ok ov =>
        simp only [h2] at h
        cases ov with
        | some v =>
          cases h3 : onePass cat o rest (ctx ++ [(n, v)]) with
          | error e =>
            simp only [h3] at h
            cases h
            exact ih (ctx ++ [(n, v)]) ds h3
          | ok t => obtain ⟨a, b, c⟩ := t; simp only [h3] at h; cases h
        | none =>
          cases h3 : onePass cat o rest ctx with
          | error e =>
            simp only [h3] at h
            cases h
            exact ih ctx ds h3
          | ok t => obtain ⟨a, b, c⟩ := t; simp only [h3] at h; cases h

theorem genLoop_ne_none (cat : Catalog) (o : Oracle) :
    ∀ (fuel : Nat) (l : List String) (ctx : Ctx),
    l.length < fuel → genLoop cat o fuel l ctx ≠ none := by
  intro fuel
  induction fuel with
  | zero => intro l ctx hl; exact absurd hl (Nat.not_lt_zero _)
  | succ f ih =>
    intro l ctx hl h
    simp only [genLoop] at h
    by_cases he : l.isEmpty
    · rw [if_pos he] at h; cases h
    · rw [if_neg he] at h
      cases h1 : onePass cat o l ctx with
      | error e => simp only [h1] at h; cases h
      | ok t =>
        obtain ⟨rem, ctx2, prog⟩ := t
        simp only [h1] at h
        cases prog with
        | true =>
          obtain ⟨l1, l2, l3, l4, l5, l6⟩ := onePass_spec cat o l ctx rem ctx2 true h1
          exact ih rem ctx2 (Nat.lt_of_lt_of_le (l2 rfl) (Nat.lt_succ_iff.mp hl)) h
        | false => cases h

theorem genLoop_ok_keys (cat : Catalog) (o : Oracle) :
    ∀ (fuel : Nat) (l : List String) (ctx ctx' : Ctx),
    genLoop cat o fuel l ctx = some (.ok ctx') →
    ∀ x, (x ∈ ctxKeys ctx ∨ x ∈ l) → x ∈ ctxKeys ctx' := by
  intro fuel
  induction fuel with
  | zero => intro l ctx ctx' h; cases h
  | succ f ih =>
    intro l ctx ctx' h x hx
    simp only [genLoop] at h
    by_cases he : l.isEmpty
    · rw [if_pos he] at h
      have hl : l = [] := List.isEmpty_iff.mp he
      subst hl
      rcases hx with hx1 | hx2
      · cases h with
        | refl => exact hx1
      · cases hx2
    · rw [if_neg he] at h
      cases h1 : onePass cat o l ctx with
      | error e => simp only [h1] at h; cases h
      | ok t =>
        obtain ⟨rem, ctx2, prog⟩ := t
        simp only [h1] at h
        cases prog with
        | true =>
          obtain ⟨l1, l2, l3, l4, l5, l6⟩ := onePass_spec cat o l ctx rem ctx2 true h1
          refine ih rem ctx2 ctx' h x ?_
          rcases hx with hx1 | hx2
          · exact Or.inl (l5 x hx1)
          · rcases l6 x hx2 with hA | hB
            · exact Or.inl hA
            · exact Or.inr hB
        | false => cases h

theorem genLoop_stuck (cat : Catalog) (o : Oracle) :
    ∀ (fuel : Nat) (l : List String) (ctx : Ctx) (ds : List Diag),
    (∀ x ∈ l, x ∈ fieldNames cat) →
    genLoop cat o fuel l ctx = some (.error (.runtimeError ds)) →
    ∃ rem, rem ≠ [] ∧ (∀ x ∈ rem, x ∈ fieldNames cat) ∧
      ds = rem.map (diagOf cat) := by
  intro fuel
  induction fuel with
  | zero => intro l ctx ds _ h; cases h
  | succ f ih =>
    intro l ctx ds hsub h
    simp only [genLoop] at h
    by_cases he : l.isEmpty
    · rw [if_pos he] at h; cases h
    · rw [if_neg he] at h
      cases h1 : onePass cat o l ctx with
      | error e =>
        simp only [h1] at h
        cases h
        exact absurd h1 (onePass_no_runtime cat o l ctx ds)
      | ok t =>
        obtain ⟨rem, ctx2, prog⟩ := t
        simp only [h1] at h
        cases prog with
        | true =>
          obtain ⟨l1, l2, l3, l4, l5, l6⟩ := onePass_spec cat o l ctx rem ctx2 true h1
          exact ih rem ctx2 ds (fun x hx => hsub x (l4 x hx)) h
        | false =>
          obtain ⟨l1, l2, l3, l4, l5, l6⟩ := onePass_spec cat o l ctx rem ctx2 false h1
          obtain ⟨hrem, _⟩ := l3 rfl
          subst hrem
          cases h with
          | refl =>
            exact ⟨rem, fun hnil => he (by rw [hnil]; rfl), hsub, rfl⟩

theorem depOrdered_nil (cat : Catalog) : DepOrdered cat [] := by
  intro pre b v post hdecomp
  exact absurd hdecomp.symm (by simp)

theorem depOrdered_append (cat : Catalog) (ctx : Ctx) (n : String) (v : Value)
    (h1 : DepOrdered cat ctx)
    (h2 : ∀ fd, lookupA cat n = some fd →
      ∀ a ∈ relevantDeps cat fd, a ∈ ctxKeys ctx) :
    DepOrdered cat (ctx ++ [(n, v)]) := by
  intro pre b w post hdecomp fd hfd a ha
  rcases List.append_eq_append_iff.mp hdecomp with ⟨mid, hm1, hm2⟩ | ⟨mid, hm1, hm2⟩
  · cases mid with
    | nil =>
      rw [List.append_nil] at hm1
      simp only [List.nil_append] at hm2
      injection hm2 with hA hB
      injection hA with hn hv
      subst hn
      subst hm1
      exact h2 fd hfd a ha
    | cons y ys =>
      simp only [List.cons_append] at hm2
      injection hm2 with hA hB
      exact absurd hB.symm (by simp)
  · cases mid with
    | nil =>
      rw [List.append_nil] at hm1
      simp only [List.nil_append] at hm2
      injection hm2 with hA hB
      injection hA with hn hv
      rw [hn] at hfd
      have hmem := h2 fd hfd a ha
      rw [hm1] at hmem
      exact hmem
    | cons y ys =>
      simp only [List.cons_append] at hm2
      injection hm2 with hA hB
      subst hA
      exact h1 pre b w ys hm1 fd hfd a ha

theorem onePass_depOrdered (cat : Catalog) (o : Oracle) :
    ∀ (l : List String) (ctx : Ctx) (rem : List String) (ctx2 : Ctx) (prog : Bool),
    DepOrdered cat ctx →
    onePass cat o l ctx = .ok (rem, ctx2, prog) →
    DepOrdered cat ctx2 := by
  intro l
  induction l with
  | nil =>
    intro ctx rem ctx2 prog hdo h
    simp only [onePass, Except.ok.injEq, Prod.mk.injEq] at h
    obtain ⟨h1, h2, h3⟩ := h
    subst h2
    exact hdo
  | cons n rest ih =>
    intro ctx rem ctx2 prog hdo h
    simp only [onePass] at h
    cases h1 : lookupA cat n with
    | none => simp only [h1] at h; cases h
    | some fd =>
      simp only [h1] at h
      cases h2 : resolveField cat o fd ctx with
      | error e => simp only [h2] at h; cases h
      | ok ov =>
        simp only [h2] at h
        cases ov with
        | some v =>
          cases h3 : onePass cat o rest (ctx ++ [(n, v)]) with
          | error e => simp only [h3] at h; cases h
          | ok t =>
            obtain ⟨rem0, ctx0, p0⟩ := t
            simp only [h3, Except.ok.injEq, Prod.mk.injEq] at h
            obtain ⟨hr, hc, hp⟩ := h
            rw [← hc]
            refine ih (ctx ++ [(n, v)]) rem0 ctx0 p0 ?_ h3
            refine depOrdered_append cat ctx n v hdo ?_
            intro fd' hfd' a ha
            rw [h1] at hfd'
            injection hfd' with hfd2
            subst hfd2
            exact resolveField_some_deps cat o fd ctx v h2 a ha
        | none =>
          cases h3 : onePass cat o rest ctx with
          | error e => simp only [h3] at h; cases h
          | ok t =>
            obtain ⟨rem0, ctx0, p0⟩ := t
            simp only [h3, Except.ok.injEq, Prod.mk.injEq] at h
            obtain ⟨hr, hc, hp⟩ := h
            rw [← hc]
            exact ih ctx rem0 ctx0 p0 hdo h3

theorem genLoop_depOrdered (cat : Catalog) (o : Oracle) :
    ∀ (fuel : Nat) (l : List String) (ctx ctx' : Ctx),
    DepOrdered cat ctx →
    genLoop cat o fuel l ctx = some (.ok ctx') →
    DepOrdered cat ctx' := by
  intro fuel
  induction fuel with
  | zero => intro l ctx ctx' _ h; cases h
  | succ f ih =>
    intro l ctx ctx' hdo h
    simp only [genLoop] at h
    by_cases he : l.isEmpty
    · rw [if_pos he] at h
      cases h with
      | refl => exact hdo
    · rw [if_neg he] at h
      cases h1 : onePass cat o l ctx with
      | error e => simp only [h1] at h; cases h
      | ok t =>
        obtain ⟨rem, ctx2, prog⟩ := t
        simp only [h1] at h
        cases prog with
        | true =>
          exact ih rem ctx2 ctx'
            (onePass_depOrdered cat o l ctx rem ctx2 true hdo h1) h
        | false => cases h

/-- Claim C1: for every field catalog, `generate_one` terminates: the fuel
bound is never exhausted (the `while` loop cannot run forever); when it
returns a record every catalog field is resolved in it; and when a full
scan resolves zero fields while some remain unresolved it raises the
`RuntimeError` whose diagnostic report lists each still-unresolved field
with its distribution presence, formula, default and declared
dependencies. -/
theorem C1_generate_one_terminates (cat : Catalog) (o : Oracle) :
    generate_one cat o ≠ none
    ∧ (∀ ctx, generate_one cat o = some (.ok ctx) →
        ∀ x ∈ fieldNames cat, x ∈ ctxKeys ctx)
    ∧ (∀ ds, generate_one cat o = some (.error (.runtimeError ds)) →
        ∃ rem, rem ≠ [] ∧ (∀ x ∈ rem, x ∈ fieldNames cat) ∧
          ds = rem.map (diagOf cat) ∧
          ∀ x ∈ rem, ∀ fd, lookupA cat x = some fd →
            diagOf cat x = ⟨x, fd.distribution.isSome, fd.formula,
              fd.default_val, fd.dependent_on⟩) := by
  refine ⟨?_, ?_, ?_⟩
  · apply genLoop_ne_none
    simp only [fieldNames, List.length_map]
    omega
  · intro ctx h x hx
    exact genLoop_ok_keys cat o (cat.length + 1) (fieldNames cat) [] ctx h x (Or.inr hx)
  · intro ds h
    obtain ⟨rem, h1, h2, h3⟩ :=
      genLoop_stuck cat o (cat.length + 1) (fieldNames cat) [] ds (fun x hx => hx) h
    refine ⟨rem, h1, h2, h3, ?_⟩
    intro x _ fd hfd
    simp [diagOf, hfd]

/-- Claim C1, witness: the theorem applied to the concrete stuck catalog
`catC1`, whose single field is reported with its metadata. -/
theorem C1_generate_one_terminates_witness :
    generate_one catC1 anOracle ≠ none
    ∧ (∃ rem, rem ≠ [] ∧ (∀ x ∈ rem, x ∈ fieldNames catC1) ∧
        ([{ name := "u", has_distribution := false, formula := none,
            default_val := Value.vNone,
            dependent_on := some (DepDecl.str "ghost") }] : List Diag) =
          rem.map (diagOf catC1) ∧
        ∀ x ∈ rem, ∀ fd, lookupA catC1 x = some fd →
          diagOf catC1 x = ⟨x, fd.distribution.isSome, fd.formula,
            fd.default_val, fd.dependent_on⟩) :=
  ⟨(C1_generate_one_terminates catC1 anOracle).1,
   (C1_generate_one_terminates catC1 anOracle).2.2 _ rfl⟩

/-- Claim C2, counterexample: in `catC2` the field `b` has no formula and
no distribution and its only relevant dependency `a` is resolved on the
first pass, yet `b` is never assigned its default: the run aborts with the
no-progress `RuntimeError` reporting `b` (because `b`'s `None` default and
truthy `required` attribute fail the `has_explicit_default` test and its
non-empty dependency list fails the `not deps` test). -/
theorem C2_default_skipped_counterexample :
    generate_one catC2 anOracle =
      some (.error (.runtimeError
        [{ name := "b", has_distribution := false, formula := none,
           default_val := Value.vNone,
           dependent_on := some (DepDecl.str "a") }])) := rfl

/-- Claim C2, amended: a field with no formula and no distribution whose
relevant dependencies are all resolved is assigned its default value on
that pass provided it has an explicit default (a non-`None` default value,
or a present-and-falsy `required` attribute) or declares no dependencies
at all; without that proviso such a field is skipped (see the
counterexample). -/
theorem C2_default_resolution_amended (cat : Catalog) (o : Oracle)
    (fd : FieldDesc) (ctx : Ctx)
    (hf : fd.formula = none) (hd : fd.distribution = none)
    (hdeps : ∀ a ∈ relevantDeps cat fd, a ∈ ctxKeys ctx)
    (hok : hasExplicitDefault fd = true ∨ depsList fd.dependent_on = []) :
    resolveField cat o fd ctx = .ok (some fd.default_val) := by
  have hany : ((relevantDeps cat fd).any fun d => (lookupA ctx d).isNone) = false := by
    rw [List.any_eq_false]
    intro a ha
    have hs := (lookupA_isSome_iff ctx a).mpr (hdeps a ha)
    cases hl : lookupA ctx a with
    | none => rw [hl] at hs; cases hs
    | some v => simp
  rcases hok with hok | hok
  · simp [resolveField, hany, hf, hd, hok]
  · simp [resolveField, hany, hf, hd, hok]


/-- Claim C2, witness for the amended theorem: a dependent field with an
explicit default resolves to that default once its dependency is in the
context. -/
theorem C2_default_resolution_amended_witness :
    resolveField [("a", fdPlain (.vInt 0))] anOracle fdC2w
      [("a", Value.vInt 0)] = .ok (some (Value.vInt 5)) :=
  C2_default_resolution_amended [("a", fdPlain (.vInt 0))] anOracle fdC2w
    [("a", Value.vInt 0)] rfl rfl (by decide) (Or.inl (by decide))

/-- Claim C3 (code bug): the catalog `catC3` has an empty relevant
dependency set (its only declared dependency, `signup_date`, is external),
so by the claim — and by the source's own comments at lines 138-140 and
167-169 — `generate_one` must return a record containing `tenure`; instead
the resolution step tests `not deps` (all declared dependencies) rather
than `not relevant_deps`, skips the field on every pass, and the run
aborts with the no-progress `RuntimeError`. -/
theorem C3_external_dependency_blocks :
    relevantDeps catC3 fdC3 = []
    ∧ generate_one catC3 anOracle =
        some (.error (.runtimeError
          [{ name := "tenure", has_distribution := false, formula := none,
             default_val := Value.vNone,
             dependent_on := some (DepDecl.str "signup_date") }])) :=
  ⟨rfl, rfl⟩

/-- Claim C4: dependency ordering — whenever `generate_one` returns a
record, every field's value was written into the context only after all of
its relevant (in-catalog) dependencies already had values earlier in the
context. -/
theorem C4_dependency_ordering (cat : Catalog) (o : Oracle) (ctx : Ctx)
    (h : generate_one cat o = some (.ok ctx)) :
    DepOrdered cat ctx :=
  genLoop_depOrdered cat o (cat.length + 1) (fieldNames cat) [] ctx
    (depOrdered_nil cat) h

/-- Claim C4, witness: the concrete catalog `catC4` generates the record
`[a ↦ 1, b ↦ 2]`, and the theorem yields its dependency ordering. -/
theorem C4_dependency_ordering_witness :
    generate_one catC4 anOracle =
      some (.ok [("a", Value.vInt 1), ("b", Value.vInt 2)])
    ∧ DepOrdered catC4 [("a", Value.vInt 1), ("b", Value.vInt 2)] :=
  ⟨rfl, C4_dependency_ordering catC4 anOracle _ rfl⟩

/-- Claim C5, counterexample: a conditional-categorical spec whose rules
table contains the unparsable range key `"self-employed"` does not
"produce no value": with the condition field in context the rule scan
reaches the key, `int("self")` fails, and `sample_distribution` raises a
`ValueError` instead of returning `None`. -/
theorem C5_unparsable_range_key_raises :
    sample_distribution anOracle (some cfgC5) [("employment", Value.vInt 3)] =
      .error (.valueError "self") := rfl

/-- Claim C5, amended: a spec whose `dist` key is missing or names none
of the six recognized distribution kinds makes `sample_distribution`
return `None` without raising.  A conditional-categorical rule scan that
reaches an unparsable range key with the condition field in context
raises a `ValueError` rather than producing `None` in exactly these
cases: the dash-split of the key has a number of pieces other than two;
the lower piece fails `int()`; or the lower piece and the conditioning
value parse as integers with `lo ≤ cond_val` and the upper piece fails
`int()`.  When the chained comparison short-circuits
(`int(cond_val) < int(lo)`), an unparsable upper piece is passed over
without raising and scanning continues — on the concrete spec
`cfgC5short` with `age = 5` the `"default"` rule even fires and a value
is produced. -/
theorem C5_malformed_spec_amended :
    (∀ (o : Oracle) (c : DistCfg) (ctx : Ctx),
      (∀ s, c.dist = some s →
        s ∉ (["normal", "lognormal", "poisson", "exponential",
              "categorical", "bernoulli"] : List String)) →
      sample_distribution o (some c) ctx = .ok .vNone)
    ∧ (∀ (key : String) (rule : Rule) (rest : List (String × Rule))
        (cv : Value) (loCs hiCs : List Char) (e : SampleErr),
        key ≠ "default" → key.data.contains '-' = true →
        splitOnDash key.data = [loCs, hiCs] →
        pyIntChars loCs = .error e →
        scanRules ((key, rule) :: rest) cv = .error e)
    ∧ (∀ (key : String) (rule : Rule) (rest : List (String × Rule))
        (cv : Value) (loCs hiCs : List Char) (loI cvI : Int) (e : SampleErr),
        key ≠ "default" → key.data.contains '-' = true →
        splitOnDash key.data = [loCs, hiCs] →
        pyIntChars loCs = .ok loI → pyIntOfValue cv = .ok cvI →
        loI ≤ cvI → pyIntChars hiCs = .error e →
        scanRules ((key, rule) :: rest) cv = .error e)
    ∧ (∀ (key : String) (rule : Rule) (rest : List (String × Rule))
        (cv : Value),
        key ≠ "default" → key.data.contains '-' = true →
        (splitOnDash key.data).length ≠ 2 →
        scanRules ((key, rule) :: rest) cv =
          .error (.valueError "too many values to unpack"))
    ∧ (∀ (key : String) (rule : Rule) (rest : List (String × Rule))
        (cv : Value) (loCs hiCs : List Char) (loI cvI : Int),
        key ≠ "default" → key.data.contains '-' = true →
        splitOnDash key.data = [loCs, hiCs] →
        pyIntChars loCs = .ok loI → pyIntOfValue cv = .ok cvI →
        cvI < loI →
        scanRules ((key, rule) :: rest) cv = scanRules rest cv)
    ∧ sample_distribution anOracle (some cfgC5short)
        [("age", Value.vInt 5)] = .ok (.vStr "old") := by
  refine ⟨?_, ?_, ?_, ?_, ?_, rfl⟩
  · intro o c ctx h
    cases hd : c.dist with
    | none => simp [sample_distribution, hd]
    | some s =>
      have hs := h s hd
      simp only [List.mem_cons, List.mem_singleton, not_or] at hs
      obtain ⟨h1, h2, h3, h4, h5, h6, _⟩ := hs
      simp [sample_distribution, hd, h1, h2, h3, h4, h5, h6]
  · intro key rule rest cv loCs hiCs e hk hdash hsplit herr
    rw [scanRules, if_neg hk, if_pos hdash]
    simp only [hsplit, herr]
  · intro key rule rest cv loCs hiCs loI cvI e hk hdash hsplit hlo hcv hle hhi
    rw [scanRules, if_neg hk, if_pos hdash]
    simp only [hsplit, hlo, hcv, if_pos hle, hhi]
  · intro key rule rest cv hk hdash hlen
    rw [scanRules, if_neg hk, if_pos hdash]
    cases hsp : splitOnDash key.data with
    | nil => simp only [hsp]
    | cons a t1 =>
      cases t1 with
      | nil => simp only [hsp]
      | cons b t2 =>
        cases t2 with
        | nil => exact absurd (by rw [hsp]; rfl) hlen
        | cons c t3 => simp only [hsp]
  · intro key rule rest cv loCs hiCs loI cvI hk hdash hsplit hlo hcv hlt
    rw [scanRules, if_neg hk, if_pos hdash]
    simp only [hsplit, hlo, hcv, if_neg (not_le.mpr hlt)]

/-- Claim C5, witness for the amended theorem: an unrecognized kind
(`"weibull"`) produces `None`; the key `"x-9"` raises from its lower
piece; the key `"18-c"` raises from its upper piece when the range check
`18 ≤ 20` passes first; the key `"1-2-3"` raises the unpacking
`ValueError`; and the same key `"18-c"` is passed over without raising
when the conditioning value `5` short-circuits the comparison. -/
theorem C5_malformed_spec_amended_witness :
    sample_distribution anOracle
      (some { emptyCfg with dist := some "weibull" }) [] = .ok .vNone
    ∧ scanRules [("x-9", (⟨some [("a", 1)]⟩ : Rule))] (Value.vInt 20) =
        .error (.valueError "x")
    ∧ scanRules [("18-c", (⟨some [("a", 1)]⟩ : Rule))] (Value.vInt 20) =
        .error (.valueError "c")
    ∧ scanRules [("1-2-3", (⟨some [("a", 1)]⟩ : Rule))] (Value.vInt 20) =
        .error (.valueError "too many values to unpack")
    ∧ scanRules [("18-c", (⟨some [("a", 1)]⟩ : Rule))] (Value.vInt 5) =
        scanRules [] (Value.vInt 5) :=
  ⟨C5_malformed_spec_amended.1 anOracle _ []
      (by intro s hs; injection hs with h2; subst h2; decide),
   C5_malformed_spec_amended.2.1 "x-9" ⟨some [("a", 1)]⟩ [] (Value.vInt 20)
      ['x'] ['9'] (.valueError "x") (by decide) rfl rfl rfl,
   C5_malformed_spec_amended.2.2.1 "18-c" ⟨some [("a", 1)]⟩ [] (Value.vInt 20)
      ['1', '8'] ['c'] 18 20 (.valueError "c") (by decide) rfl rfl rfl rfl
      (by decide) rfl,
   C5_malformed_spec_amended.2.2.2.1 "1-2-3" ⟨some [("a", 1)]⟩ []
      (Value.vInt 20) (by decide) rfl (by decide),
   C5_malformed_spec_amended.2.2.2.2.1 "18-c" ⟨some [("a", 1)]⟩ []
      (Value.vInt 5) ['1', '8'] ['c'] 18 5 (by decide) rfl rfl rfl rfl
      (by decide)⟩

/-- Claim C6: conditional-categorical rule selection — a non-`"default"`
key containing a dash whose two pieces parse as integers matches exactly
when the integer conditioning value lies in the inclusive range, any other
non-`"default"` key matches exactly when it equals `str(cond_val)`; on the
concrete spec `cfgC6` with `age = 20` the `"18-22"` rule is selected
(yielding its label, never the default's), and with `age = 99` the
`"default"` rule is selected. -/
theorem C6_conditional_categorical_routing :
    (∀ (key : String) (rule : Rule) (rest : List (String × Rule))
       (cv : Value) (loCs hiCs : List Char) (loI cvI hiI : Int),
       key ≠ "default" → key.data.contains '-' = true →
       splitOnDash key.data = [loCs, hiCs] →
       pyIntChars loCs = .ok loI → pyIntOfValue cv = .ok cvI →
       pyIntChars hiCs = .ok hiI → loI ≤ cvI → cvI ≤ hiI →
       scanRules ((key, rule) :: rest) cv = .ok (some rule))
    ∧ (∀ (key : String) (rule : Rule) (rest : List (String × Rule))
        (cv : Value),
        key ≠ "default" → key.data.contains '-' = false →
        pyStr cv = key →
        scanRules ((key, rule) :: rest) cv = .ok (some rule))
    ∧ sample_distribution anOracle (some cfgC6) [("age", Value.vInt 20)] =
        .ok (.vStr "young")
    ∧ sample_distribution anOracle (some cfgC6) [("age", Value.vInt 99)] =
        .ok (.vStr "old") := by
  refine ⟨?_, ?_, rfl, rfl⟩
  · intro key rule rest cv loCs hiCs loI cvI hiI hk hdash hsplit hlo hcv hhi hle1 hle2
    rw [scanRules, if_neg hk, if_pos hdash]
    simp only [hsplit, hlo, hcv, hhi, if_pos hle1, if_pos hle2]
  · intro key rule rest cv hk hdash hcvk
    rw [scanRules, if_neg hk, hdash]
    simp [hcvk]

/-- Claim C6, witness: the range-match clause applied to the key
`"18-22"` with conditioning value `20`. -/
theorem C6_conditional_categorical_routing_witness :
    scanRules [("18-22", ruleC6young)] (Value.vInt 20) =
      .ok (some ruleC6young) :=
  C6_conditional_categorical_routing.1 "18-22" ruleC6young [] (Value.vInt 20)
    ['1', '8'] ['2', '2'] 18 20 22 (by decide) rfl rfl rfl rfl rfl
    (by decide) (by decide)

/-- Claim C7: formula priority — a field carrying both a formula and a
distribution spec, once its relevant dependencies are resolved, resolves
through the formula evaluator; the distribution spec is never consulted
(replacing it changes nothing) and the random source is never consulted
(changing the oracle changes nothing). -/
theorem C7_formula_priority (cat : Catalog) (o o2 : Oracle) (fd : FieldDesc)
    (ctx : Ctx) (f : Ctx → Except String Value) (d : DistCfg)
    (hf : fd.formula = some f) (_hd : fd.distribution = some d)
    (hdeps : ∀ a ∈ relevantDeps cat fd, a ∈ ctxKeys ctx) :
    resolveField cat o fd ctx =
      (match f ctx with
       | .error m => .error (.formulaError m)
       | .ok v => .ok (some v))
    ∧ (∀ d2 : DistCfg,
        resolveField cat o { fd with distribution := some d2 } ctx =
          resolveField cat o fd ctx)
    ∧ resolveField cat o2 fd ctx = resolveField cat o fd ctx := by
  have hany : ((relevantDeps cat fd).any fun d => (lookupA ctx d).isNone) = false := by
    rw [List.any_eq_false]
    intro a ha
    have hs := (lookupA_isSome_iff ctx a).mpr (hdeps a ha)
    cases hl : lookupA ctx a with
    | none => rw [hl] at hs; cases hs
    | some v => simp
  have hbase : resolveField cat o fd ctx =
      (match f ctx with
       | .error m => .error (.formulaError m)
       | .ok v => .ok (some v)) := by
    rw [resolveField]
    rw [if_neg (by simp [hany])]
    simp only [hf]
  refine ⟨hbase, ?_, ?_⟩
  · intro d2
    have hre : relevantDeps cat { fd with distribution := some d2 } =
        relevantDeps cat fd := rfl
    have hform : ({ fd with distribution := some d2 } : FieldDesc).formula =
        some f := hf
    rw [hbase, resolveField, hre, if_neg (by simp [hany])]
    simp only [hform, hf]
  · rw [hbase]
    rw [resolveField]
    rw [if_neg (by simp [hany])]
    simp only [hf]

/-- Claim C7, witness: the concrete field `fdC7` (formula returning `3`,
normal distribution spec attached) resolves to the formula's value; its
distribution spec can be replaced and the oracle can be swapped without
changing the outcome. -/
theorem C7_formula_priority_witness :
    resolveField [] anOracle fdC7 [] = .ok (some (Value.vInt 3))
    ∧ resolveField [] anOracle { fdC7 with distribution := some emptyCfg } [] =
        resolveField [] anOracle fdC7 []
    ∧ resolveField [] oracleC9 fdC7 [] = resolveField [] anOracle fdC7 [] :=
  ⟨(C7_formula_priority [] anOracle oracleC9 fdC7 []
      (fun _ => .ok (.vInt 3)) cfgC7 rfl rfl
      (fun a ha => absurd ha (List.not_mem_nil a))).1,
   (C7_formula_priority [] anOracle oracleC9 fdC7 []
      (fun _ => .ok (.vInt 3)) cfgC7 rfl rfl
      (fun a ha => absurd ha (List.not_mem_nil a))).2.1 emptyCfg,
   (C7_formula_priority [] anOracle oracleC9 fdC7 []
      (fun _ => .ok (.vInt 3)) cfgC7 rfl rfl
      (fun a ha => absurd ha (List.not_mem_nil a))).2.2⟩

/-- Claim C8, counterexample: on the degenerate spec `cfgC8` with
`min = 100 > 18 = max`, the clamped draw is `18`, which does not lie in
`[min, max] = [100, 18]` — so "whenever both min and max are present the
returned value always lies in [min, max]" fails as stated. -/
theorem C8_degenerate_bounds_counterexample :
    sample_distribution anOracle (some cfgC8) [] = .ok (.vRat 18)
    ∧ ¬((100 : Rat) ≤ 18 ∧ (18 : Rat) ≤ 18) :=
  ⟨rfl, by decide⟩

/-- Claim C8, amended: for a normal spec carrying both bounds the sampled
value is the single Gaussian draw clamped as `min(max(draw, lo), hi)` (not
re-drawn), and provided `min ≤ max` that value lies in `[min, max]`. -/
theorem C8_normal_clamp_amended (o : Oracle) (c : DistCfg) (ctx : Ctx)
    (lo hi : Rat) (h1 : c.dist = some "normal") (h2 : c.min = some lo)
    (h3 : c.max = some hi) (hle : lo ≤ hi) :
    sample_distribution o (some c) ctx =
      .ok (.vRat (min (max (o.normal (c.mean.getD 0) (c.sd.getD 1)) lo) hi))
    ∧ lo ≤ min (max (o.normal (c.mean.getD 0) (c.sd.getD 1)) lo) hi
    ∧ min (max (o.normal (c.mean.getD 0) (c.sd.getD 1)) lo) hi ≤ hi :=
  ⟨by simp [sample_distribution, h1, h2, h3],
   le_min (le_max_right _ _) hle,
   min_le_right _ _⟩

/-- Claim C8, witness for the amended theorem: the spec
`normal(mean 40, sd 12, min 18, max 100)` under the oracle whose normal
draw returns the mean. -/
theorem C8_normal_clamp_amended_witness :
    sample_distribution anOracle
        (some { emptyCfg with
                dist := some "normal"
                mean := some 40
                sd := some 12
                min := some 18
                max := some 100 }) [] =
      .ok (.vRat (min (max (anOracle.normal 40 12) 18) 100))
    ∧ (18 : Rat) ≤ min (max (anOracle.normal 40 12) 18) 100
    ∧ min (max (anOracle.normal 40 12) 18) 100 ≤ (100 : Rat) :=
  C8_normal_clamp_amended anOracle _ [] 18 100 rfl rfl rfl (by norm_num)

/-- Claim C9, counterexample: `cfgC9` supplies `mean = 5` and `sigma = 7`,
but the sampler draws `lognormal(1, 1)` regardless: under the oracle whose
log-normal draw returns its first shape parameter the result is `1`, not
the `5` a draw with the supplied parameters would give — the supplied
values never override the hard-coded defaults. -/
theorem C9_lognormal_params_ignored_counterexample :
    cfgC9.mean = some 5
    ∧ cfgC9.sigma = some 7
    ∧ sample_distribution oracleC9 (some cfgC9) [] = .ok (.vRat 1)
    ∧ oracleC9.lognormal 5 7 = 5
    ∧ (1 : Rat) ≠ 5 :=
  ⟨rfl, rfl, rfl, rfl, by decide⟩

/-- Claim C9, amended: for every lognormal spec the sampler draws with the
fixed shape parameters `mean = 1, sigma = 1`; any `mean`/`sigma` values
supplied by the spec are ignored. -/
theorem C9_lognormal_fixed_params_amended (o : Oracle) (c : DistCfg)
    (ctx : Ctx) (h : c.dist = some "lognormal") :
    sample_distribution o (some c) ctx = .ok (.vRat (o.lognormal 1 1)) := by
  simp [sample_distribution, h]

/-- Claim C9, witness for the amended theorem. -/
theorem C9_lognormal_fixed_params_amended_witness :
    sample_distribution anOracle
      (some { emptyCfg with dist := some "lognormal" }) [] =
      .ok (.vRat (anOracle.lognormal 1 1)) :=
  C9_lognormal_fixed_params_amended anOracle _ [] rfl

/-- Claim C10: `generate` requires `n ≥ 1` — with `n = 0` the row list is
empty and taking `rows[0]` for the CSV header raises an `IndexError`
(never an empty file with a header); with `n = 1` and a successful record
the header is exactly that first record's keys. -/
theorem C10_generate_requires_positive_n (cat : Catalog) (o : Oracle) :
    generate cat o 0 = some (.error (.sample .indexError))
    ∧ (∀ ctx, generate_one cat o = some (.ok ctx) →
        generate cat o 1 = some (.ok (ctxKeys ctx, [ctx]))) := by
  constructor
  · rfl
  · intro ctx h
    simp [generate, genRows, h, seqRows]

/-- Claim C10, witness: the concrete catalog `catC10`. -/
theorem C10_generate_requires_positive_n_witness :
    generate catC10 anOracle 0 = some (.error (.sample .indexError))
    ∧ generate catC10 anOracle 1 =
        some (.ok (ctxKeys [("a", Value.vInt 7)], [[("a", Value.vInt 7)]])) :=
  ⟨(C10_generate_requires_positive_n catC10 anOracle).1,
   (C10_generate_requires_positive_n catC10 anOracle).2 [("a", Value.vInt 7)] rfl⟩
